import Mathlib

/-!
Verification of the `lore` scenario-language core (`src/scenario/parser.ts`,
`src/scenario/scene.ts`): a buffered reader, a lexer, and a recursive-descent
parser building a Scene/Author/Branch document.

Modelling conventions:
* `BufferReader` is embedded as an immutable source buffer (`List Char`)
  plus a cursor `pos`; each method is a state transformer returning its
  result together with the post-call reader state.  Fallible methods return
  `Except String`.  `read` advances the cursor unconditionally, exactly as
  the TypeScript does (the bounds check lives in `peek`, whose rejected
  promise is not awaited before `this._pos += k` executes).
* The lexer only ever accesses the reader through `peek 1` / `read 1` /
  `isEOF`, all of which depend only on the suffix of the buffer at the
  cursor.  The lexer and parser are therefore embedded as functions of that
  remaining-character suffix; the bridge lemmas following the reader
  definitions prove that this suffix view agrees with the cursor model.
* The parser pulls tokens lazily from the lexer; since lexing is
  independent of parser state, the stream the parser sees is `tokenize` of
  the source, and the parser productions are embedded over that token list.
-/

namespace Lore

/-- Reader state: the immutable source text and the cursor position
(`_source` / `_pos` in `BufferReader`). -/
structure BufferReader where
  source : List Char
  pos : Nat
deriving DecidableEq

/-- `BufferReader.peek(k)`: the next `k` characters, without moving the
cursor (the returned state is the input state).  Errors when `pos + k`
runs past the end of the buffer.  (The TypeScript default is `k = 1`;
call sites pass `1` explicitly here.) -/
def BufferReader.peek (r : BufferReader) (k : Nat) :
    Except String (List Char) × BufferReader :=
  (if r.source.length < r.pos + k then .error "k lies outside source buffer"
   else .ok ((r.source.drop r.pos).take k), r)

/-- `BufferReader.read(k)`: the result of `peek(k)`, then `_pos += k` on
the state `peek` left behind.  The cursor advances even when `peek`
failed. -/
def BufferReader.read (r : BufferReader) (k : Nat) :
    Except String (List Char) × BufferReader :=
  let (s, r1) := r.peek k
  (s, { r1 with pos := r1.pos + k })

/-- `BufferReader.isEOF()`: the cursor is at or past the end of the buffer. -/
def BufferReader.isEOF (r : BufferReader) : Bool :=
  r.source.length ≤ r.pos

/-- The suffix of the buffer at the cursor: the view of the reader that
the lexer observes through `peek 1` / `read 1` / `isEOF`. -/
def BufferReader.rest (r : BufferReader) : List Char :=
  r.source.drop r.pos

theorem isEOF_iff_rest_nil (r : BufferReader) :
    r.isEOF = true ↔ r.rest = [] := by
  simp [BufferReader.isEOF, BufferReader.rest, List.drop_eq_nil_iff]

theorem peek_fst_eq_of_rest (r : BufferReader) (k : Nat) (hp : r.pos ≤ r.source.length) :
    (r.peek k).1 = if r.rest.length < k then .error "k lies outside source buffer"
      else .ok (r.rest.take k) := by
  simp only [BufferReader.peek, BufferReader.rest, List.length_drop]
  have : r.source.length < r.pos + k ↔ r.source.length - r.pos < k := by omega
  simp [this]

theorem read_rest (r : BufferReader) (k : Nat) :
    ((r.read k).2).rest = r.rest.drop k ∧ (r.read k).1 = (r.peek k).1 := by
  simp [BufferReader.read, BufferReader.peek, BufferReader.rest, List.drop_drop,
    Nat.add_comm]

/-- The six token kinds of the lexer. -/
inductive TokenType where
  | KEYWORD
  | COMMENT
  | IDENTIFIER
  | STRING
  | OPEN_BRACE
  | CLOSE_BRACE
deriving DecidableEq

/-- Printable name of a token type, as interpolated into parser error
messages. -/
def TokenType.name : TokenType → String
  | .KEYWORD => "KEYWORD"
  | .COMMENT => "COMMENT"
  | .IDENTIFIER => "IDENTIFIER"
  | .STRING => "STRING"
  | .OPEN_BRACE => "OPEN_BRACE"
  | .CLOSE_BRACE => "CLOSE_BRACE"

/-- A token: kind plus text value (the tagged union `Token`). -/
structure Token where
  type : TokenType
  value : List Char
deriving DecidableEq

/-- The four reserved keywords. -/
def keywords : List (List Char) :=
  ["author".toList, "scene".toList, "branch".toList, "jump".toList]

/-- `Lexer.isWhitespace`. -/
def isWhitespace (c : Char) : Bool :=
  c == ' ' || c == '\t' || c == '\n' || c == '\r'

/-- `Lexer.eatWhitespace`: consume horizontal whitespace (tabs and
spaces) at the cursor.  State = remaining character suffix. -/
def eatWhitespace : List Char → List Char
  | [] => []
  | c :: rest => if c == '\t' || c == ' ' then eatWhitespace rest else c :: rest

theorem eatWhitespace_length_le (l : List Char) :
    (eatWhitespace l).length ≤ l.length := by
  induction l with
  | nil => simp [eatWhitespace]
  | cons a l ih =>
    simp only [eatWhitespace]
    split
    · exact Nat.le_succ_of_le ih
    · simp

/-- Body loop of `Lexer.comment`: accumulate characters into `s` until a
carriage return, a newline, or the end of the source.  Returns the
accumulated text and the remaining suffix. -/
def commentBody (s : List Char) : List Char → List Char × List Char
  | [] => (s, [])
  | c :: rest =>
    if c == '\r' || c == '\n' then (s, c :: rest)
    else commentBody (s ++ [c]) rest

theorem commentBody_length_le (s l : List Char) :
    (commentBody s l).2.length ≤ l.length := by
  induction l generalizing s with
  | nil => simp [commentBody]
  | cons a l ih =>
    simp only [commentBody]
    split
    · simp
    · exact Nat.le_succ_of_le (ih _)

/-- `Lexer.comment`: check for `#`, consume it, eat horizontal
whitespace, then accumulate the rest of the line; the text is wrapped in
a COMMENT token (which `nextToken` then discards). -/
def comment (r : List Char) : Except String (Token × List Char) :=
  match r with
  | [] => .error "k lies outside source buffer"
  | c :: rest =>
    if c != '#' then .error "Expected #"
    else
      let rest1 := eatWhitespace rest
      let (s, rest2) := commentBody [] rest1
      .ok (⟨.COMMENT, s⟩, rest2)

theorem comment_ok_length_lt {r : List Char} {t : Token} {r' : List Char}
    (h : comment r = .ok (t, r')) : r'.length < r.length := by
  match r with
  | [] => simp [comment] at h
  | c :: rest =>
    simp only [comment] at h
    split at h
    · simp at h
    · simp only [Except.ok.injEq, Prod.mk.injEq] at h
      have h1 := commentBody_length_le [] (eatWhitespace rest)
      have h2 := eatWhitespace_length_le rest
      rw [← h.2]
      simp only [List.length_cons]
      omega

/-- Body loop of `Lexer.keywordOrIdentifier`: accumulate a maximal run of
non-whitespace characters. -/
def keywordOrIdentifierLoop (s : List Char) : List Char → List Char × List Char
  | [] => (s, [])
  | c :: rest =>
    if isWhitespace c then (s, c :: rest)
    else keywordOrIdentifierLoop (s ++ [c]) rest

theorem keywordOrIdentifierLoop_length_le (s l : List Char) :
    (keywordOrIdentifierLoop s l).2.length ≤ l.length := by
  induction l generalizing s with
  | nil => simp [keywordOrIdentifierLoop]
  | cons a l ih =>
    simp only [keywordOrIdentifierLoop]
    split
    · simp
    · exact Nat.le_succ_of_le (ih _)

/-- `Lexer.keywordOrIdentifier`: read a maximal non-whitespace run; emit
a KEYWORD token if it is one of the reserved words, an IDENTIFIER token
otherwise. -/
def keywordOrIdentifier (r : List Char) : Token × List Char :=
  if keywords.contains (keywordOrIdentifierLoop [] r).1 then
    (⟨.KEYWORD, (keywordOrIdentifierLoop [] r).1⟩, (keywordOrIdentifierLoop [] r).2)
  else
    (⟨.IDENTIFIER, (keywordOrIdentifierLoop [] r).1⟩, (keywordOrIdentifierLoop [] r).2)

/-- Body loop of `Lexer.stringLiteral`.  Mirrors the TypeScript loop
statement by statement, including its fall-through: the `c === '\\'`
branch has no `continue`, so after consuming the backslash and appending
the escaped character, control still reaches the unconditional
`s += await this._reader.read()` at the bottom of the loop body
(appending one further character), while the closing-quote,
carriage-return and whitespace-collapse checks all compare against the
stale `c = '\\'` and do not fire. -/
def stringLoop (s : List Char) (r : List Char) :
    Except String (List Char × List Char) :=
  match r with
  | [] => .error "End of source"
  | c :: rest =>
    if c == '\\' then
      match rest with
      | [] => .error "k lies outside source buffer"
      | e :: rest2 =>
        match rest2 with
        | [] => .error "k lies outside source buffer"
        | n :: rest3 => stringLoop (s ++ [e] ++ [n]) rest3
    else if c == '"' then
      .ok (s, rest)
    else if c == '\r' then
      stringLoop s rest
    else if c == '\n' || c == ' ' then
      stringLoop (s ++ [c]) (eatWhitespace rest)
    else
      stringLoop (s ++ [c]) rest
termination_by r.length
decreasing_by
  · simp; omega
  · simp
  · have h := eatWhitespace_length_le rest
    simp; omega
  · simp

theorem stringLoop_ok_length_le_aux : ∀ (n : Nat) (s r v r' : List Char),
    r.length ≤ n → stringLoop s r = .ok (v, r') → r'.length ≤ r.length := by
  intro n
  induction n with
  | zero =>
    intro s r v r' hn h
    match r with
    | [] => simp [stringLoop] at h
    | c :: rest => simp at hn
  | succ n ih =>
    intro s r v r' hn h
    match r with
    | [] => simp [stringLoop] at h
    | c :: rest =>
      rw [stringLoop.eq_def] at h
      simp only at h
      split at h
      · split at h
        · simp at h
        · split at h
          · simp at h
          · rename_i e rest2 m rest3
            have hlen : rest3.length ≤ n := by
              simp_all
              omega
            have := ih _ _ _ _ hlen h
            simp only [List.length_cons]
            omega
      · split at h
        · simp only [Except.ok.injEq, Prod.mk.injEq] at h
          simp [← h.2]
        · split at h
          · have hlen : rest.length ≤ n := by simp at hn; omega
            have := ih _ _ _ _ hlen h
            simp only [List.length_cons]
            omega
          · split at h
            · have h2 := eatWhitespace_length_le rest
              have hlen : (eatWhitespace rest).length ≤ n := by simp at hn; omega
              have := ih _ _ _ _ hlen h
              simp only [List.length_cons]
              omega
            · have hlen : rest.length ≤ n := by simp at hn; omega
              have := ih _ _ _ _ hlen h
              simp only [List.length_cons]
              omega

theorem stringLoop_ok_length_le {s r v r' : List Char}
    (h : stringLoop s r = .ok (v, r')) : r'.length ≤ r.length :=
  stringLoop_ok_length_le_aux r.length s r v r' (Nat.le_refl _) h

/-- `Lexer.stringLiteral`: check for the opening quote, consume it, then
run the accumulation loop. -/
def stringLiteral (r : List Char) : Except String (Token × List Char) :=
  match r with
  | [] => .error "k lies outside source buffer"
  | c :: rest =>
    if c != '"' then .error "Expected \""
    else
      match stringLoop [] rest with
      | .error e => .error e
      | .ok (s, rest') => .ok (⟨.STRING, s⟩, rest')

/-- `Lexer.nextToken`: loop until the reader is exhausted, dispatching on
the next unread character; comments are consumed and discarded, quotes
start a string literal, braces are single-character tokens, whitespace
is skipped, and anything else is a keyword-or-identifier run.  Returns
`none` (the end-of-stream marker, `undefined`) once the source is
exhausted. -/
def nextToken (r : List Char) : Except String (Option Token × List Char) :=
  match r with
  | [] => .ok (none, [])
  | c :: rest =>
    if c == '#' then
      match hcm : comment (c :: rest) with
      | .error e => .error e
      | .ok (_, r') => nextToken r'
    else if c == '"' then
      match stringLiteral (c :: rest) with
      | .error e => .error e
      | .ok (t, r') => .ok (some t, r')
    else if c == '{' then .ok (some ⟨.OPEN_BRACE, ['{']⟩, rest)
    else if c == '}' then .ok (some ⟨.CLOSE_BRACE, ['}']⟩, rest)
    else if c == ' ' || c == '\t' || c == '\r' || c == '\n' then nextToken rest
    else
      .ok (some (keywordOrIdentifier (c :: rest)).1, (keywordOrIdentifier (c :: rest)).2)
termination_by r.length
decreasing_by
  · have := comment_ok_length_lt hcm
    omega
  · simp

theorem nextToken_some_length_lt_aux : ∀ (n : Nat) (r : List Char) (t : Token)
    (r' : List Char), r.length ≤ n → nextToken r = .ok (some t, r') →
    r'.length < r.length := by
  intro n
  induction n with
  | zero =>
    intro r t r' hn h
    match r with
    | [] => simp [nextToken] at h
    | c :: rest => simp at hn
  | succ n ih =>
    intro r t r' hn h
    match r with
    | [] => simp [nextToken] at h
    | c :: rest =>
      rw [nextToken.eq_def] at h
      simp only at h
      split at h
      · split at h
        · simp at h
        · rename_i tk r2 hcm
          have hlt := comment_ok_length_lt hcm
          have hlen : r2.length ≤ n := by
            simp only [List.length_cons] at hlt hn
            omega
          have := ih _ _ _ hlen h
          omega
      · split at h
        · split at h
          · simp at h
          · rename_i tk r2 hsl
            simp only [Except.ok.injEq, Prod.mk.injEq] at h
            rw [stringLiteral.eq_def] at hsl
            simp only at hsl
            split at hsl
            · simp at hsl
            · split at hsl
              · simp at hsl
              · rename_i v rest2 hsloop
                simp only [Except.ok.injEq, Prod.mk.injEq] at hsl
                have := stringLoop_ok_length_le hsloop
                rw [← h.2, ← hsl.2]
                simp only [List.length_cons] at this ⊢
                omega
        · split at h
          · simp only [Except.ok.injEq, Prod.mk.injEq] at h
            rw [← h.2]
            simp
          · split at h
            · simp only [Except.ok.injEq, Prod.mk.injEq] at h
              rw [← h.2]
              simp
            · split at h
              · have hlen : rest.length ≤ n := by simp at hn; omega
                have := ih _ _ _ hlen h
                simp only [List.length_cons]
                omega
              · rename_i hc hq hob hcb hws
                simp only [Except.ok.injEq, Prod.mk.injEq] at h
                have hnw : isWhitespace c = false := by
                  simp only [Bool.or_eq_true, beq_iff_eq, not_or] at hws
                  simp [isWhitespace, hws.1.1.1, hws.1.1.2, hws.1.2, hws.2]
                rw [← h.2]
                simp only [keywordOrIdentifier, keywordOrIdentifierLoop, hnw,
                  Bool.false_eq_true, if_false, List.nil_append]
                have hl := keywordOrIdentifierLoop_length_le [c] rest
                split
                · simp only [List.length_cons]
                  omega
                · simp only [List.length_cons]
                  omega

theorem nextToken_some_length_lt {r : List Char} {t : Token} {r' : List Char}
    (h : nextToken r = .ok (some t, r')) : r'.length < r.length :=
  nextToken_some_length_lt_aux r.length r t r' (Nat.le_refl _) h

/-- The full token stream the parser consumes: `nextToken` repeatedly
until it yields the end-of-stream marker. -/
def tokenize (r : List Char) : Except String (List Token) :=
  match hnt : nextToken r with
  | .error e => .error e
  | .ok (none, _) => .ok []
  | .ok (some t, r') =>
    match tokenize r' with
    | .error e => .error e
    | .ok ts => .ok (t :: ts)
termination_by r.length
decreasing_by
  exact nextToken_some_length_lt hnt

/-- `Author` (`src/scenario/scene.ts`): identity-only entity. -/
structure Author where
  id : List Char
deriving DecidableEq

/-- `Branch` as imported by the parser (`src/scenario/scene.ts`): the id;
its body is not parsed yet. -/
structure Branch where
  id : List Char
deriving DecidableEq

/-- `Scene`: id, the `_authors` array, and the `_branches` map, embedded
as an insertion-ordered association list. -/
structure Scene where
  id : List Char
  authors : List Author
  branches : List (List Char × Branch)
deriving DecidableEq

/-- JavaScript `Map.set`: overwrite in place when the key exists,
otherwise append (insertion-order semantics). -/
def mapSet : List (List Char × Branch) → List Char → Branch →
    List (List Char × Branch)
  | [], k, v => [(k, v)]
  | (k', v') :: rest, k, v =>
    if k' = k then (k, v) :: rest else (k', v') :: mapSet rest k v

/-- `Scene.addBranch`: `this._branches.set(branch.id, branch)`. -/
def Scene.addBranch (s : Scene) (b : Branch) : Scene :=
  { s with branches := mapSet s.branches b.id b }

/-- `Scene.addAuthor`: if some existing author has the same id, return
without change; otherwise push. -/
def Scene.addAuthor (s : Scene) (a : Author) : Scene :=
  if s.authors.any fun x => x.id == a.id then s
  else { s with authors := s.authors ++ [a] }

/-- Body scan of `Parser.author`: read tokens until a CLOSE_BRACE, then
return the author; at end of stream raise the unexpected-EOF error. -/
def authorLoop (a : Author) : List Token → Except String (Author × List Token)
  | [] => .error "Expected CLOSE_BRACE but reached EOF"
  | t :: rest =>
    if t.type = TokenType.CLOSE_BRACE then .ok (a, rest)
    else authorLoop a rest

/-- `Parser.author`: expect an IDENTIFIER (the author id), construct the
Author, then scan its body.  State = remaining token stream. -/
def Parser.author : List Token → Except String (Author × List Token)
  | [] => .error "Expected IDENTIFIER, got undefined"
  | t :: rest =>
    if t.type = TokenType.IDENTIFIER then authorLoop ⟨t.value⟩ rest
    else .error ("Expected IDENTIFIER, got " ++ t.type.name)

theorem authorLoop_ok_length_lt {a : Author} {toks : List Token} {a' : Author}
    {rest' : List Token} (h : authorLoop a toks = .ok (a', rest')) :
    rest'.length < toks.length := by
  induction toks with
  | nil => simp [authorLoop] at h
  | cons t rest ih =>
    simp only [authorLoop] at h
    split at h
    · simp only [Except.ok.injEq, Prod.mk.injEq] at h
      rw [← h.2]
      simp
    · have := ih h
      simp only [List.length_cons]
      omega

theorem author_ok_length_lt {toks : List Token} {a : Author}
    {rest' : List Token} (h : Parser.author toks = .ok (a, rest')) :
    rest'.length < toks.length := by
  match toks with
  | [] => simp [Parser.author] at h
  | t :: rest =>
    simp only [Parser.author] at h
    split at h
    · have := authorLoop_ok_length_lt h
      simp only [List.length_cons]
      omega
    · simp at h

/-- Body scan of `Parser.branch`: read tokens until a CLOSE_BRACE, at
which point the branch is registered on the scene; when the stream ends
first, the loop simply falls off the end and the call returns normally,
without registering the branch and without raising. -/
def branchLoop (scene : Scene) (b : Branch) : List Token → Scene × List Token
  | [] => (scene, [])
  | t :: rest =>
    if t.type = TokenType.CLOSE_BRACE then (scene.addBranch b, rest)
    else branchLoop scene b rest

/-- `Parser.branch`: expect an IDENTIFIER (the branch id), construct the
Branch, then scan its body. -/
def Parser.branch (scene : Scene) : List Token → Except String (Scene × List Token)
  | [] => .error "Expected identifier, got undefined"
  | t :: rest =>
    if t.type = TokenType.IDENTIFIER then .ok (branchLoop scene ⟨t.value⟩ rest)
    else .error ("Expected identifier, got " ++ t.type.name)

theorem branchLoop_length_le (scene : Scene) (b : Branch) (toks : List Token) :
    (branchLoop scene b toks).2.length ≤ toks.length := by
  induction toks generalizing scene with
  | nil => simp [branchLoop]
  | cons t rest ih =>
    simp only [branchLoop]
    split
    · simp
    · exact Nat.le_succ_of_le (ih _)

theorem branch_ok_length_lt {scene : Scene} {toks : List Token} {scene' : Scene}
    {rest' : List Token} (h : Parser.branch scene toks = .ok (scene', rest')) :
    rest'.length < toks.length := by
  match toks with
  | [] => simp [Parser.branch] at h
  | t :: rest =>
    simp only [Parser.branch] at h
    split at h
    · simp only [Except.ok.injEq] at h
      have := branchLoop_length_le scene ⟨t.value⟩ rest
      rw [h] at this
      simp at this
      simp only [List.length_cons]
      omega
    · simp at h

/-- Body loop of `Parser.scene`: on KEYWORD `author` collect the author
into the pending list; on KEYWORD `branch` run the branch sub-parse
(which registers the branch on the scene); on CLOSE_BRACE attach the
pending authors and return; any other token is read and dropped without
diagnostic. -/
def sceneLoop (scene : Scene) (authors : List Author) (toks : List Token) :
    Except String (Scene × List Token) :=
  match toks with
  | [] => .error "Expected CLOSE_BRACE but reached EOF"
  | t :: rest =>
    if t.type = TokenType.KEYWORD ∧ t.value = "author".toList then
      match hpa : Parser.author rest with
      | .error e => .error e
      | .ok (a, rest') => sceneLoop scene (authors ++ [a]) rest'
    else if t.type = TokenType.KEYWORD ∧ t.value = "branch".toList then
      match hpb : Parser.branch scene rest with
      | .error e => .error e
      | .ok (scene', rest') => sceneLoop scene' authors rest'
    else if t.type = TokenType.CLOSE_BRACE then
      .ok (authors.foldl Scene.addAuthor scene, rest)
    else
      sceneLoop scene authors rest
termination_by toks.length
decreasing_by
  · have := author_ok_length_lt hpa
    simp only [List.length_cons]
    omega
  · have := branch_ok_length_lt hpb
    simp only [List.length_cons]
    omega
  · simp

/-- `Parser.scene`: expect an IDENTIFIER (the scene id), then an
OPEN_BRACE, then run the body loop on a fresh scene. -/
def Parser.scene (toks : List Token) : Except String (Scene × List Token) :=
  match toks with
  | [] => .error "Expected IDENTIFIER, got undefined"
  | t :: rest =>
    if t.type = TokenType.IDENTIFIER then
      match rest with
      | [] => .error "Expected OPEN_BRACE, got undefined"
      | t2 :: rest2 =>
        if t2.type = TokenType.OPEN_BRACE then sceneLoop ⟨t.value, [], []⟩ [] rest2
        else .error ("Expected OPEN_BRACE, got " ++ t2.type.name)
    else .error ("Expected IDENTIFIER, got " ++ t.type.name)

theorem sceneLoop_ok_length_lt_aux : ∀ (n : Nat) (scene : Scene)
    (authors : List Author) (toks : List Token) (scene' : Scene)
    (rest' : List Token), toks.length ≤ n →
    sceneLoop scene authors toks = .ok (scene', rest') →
    rest'.length < toks.length := by
  intro n
  induction n with
  | zero =>
    intro scene authors toks scene' rest' hn h
    match toks with
    | [] => simp [sceneLoop] at h
    | t :: rest => simp at hn
  | succ n ih =>
    intro scene authors toks scene' rest' hn h
    match toks with
    | [] => simp [sceneLoop] at h
    | t :: rest =>
      rw [sceneLoop.eq_def] at h
      simp only at h
      split at h
      · split at h
        · simp at h
        · rename_i a rest2 hpa
          have hlt := author_ok_length_lt hpa
          have hlen : rest2.length ≤ n := by
            simp only [List.length_cons] at hn
            omega
          have := ih _ _ _ _ _ hlen h
          simp only [List.length_cons]
          omega
      · split at h
        · split at h
          · simp at h
          · rename_i sc2 rest2 hpb
            have hlt := branch_ok_length_lt hpb
            have hlen : rest2.length ≤ n := by
              simp only [List.length_cons] at hn
              omega
            have := ih _ _ _ _ _ hlen h
            simp only [List.length_cons]
            omega
        · split at h
          · simp only [Except.ok.injEq, Prod.mk.injEq] at h
            rw [← h.2]
            simp
          · have hlen : rest.length ≤ n := by
              simp only [List.length_cons] at hn
              omega
            have := ih _ _ _ _ _ hlen h
            simp only [List.length_cons]
            omega

theorem sceneLoop_ok_length_lt {scene : Scene} {authors : List Author}
    {toks : List Token} {scene' : Scene} {rest' : List Token}
    (h : sceneLoop scene authors toks = .ok (scene', rest')) :
    rest'.length < toks.length :=
  sceneLoop_ok_length_lt_aux toks.length scene authors toks scene' rest'
    (Nat.le_refl _) h

theorem scene_ok_length_lt {toks : List Token} {scene' : Scene}
    {rest' : List Token} (h : Parser.scene toks = .ok (scene', rest')) :
    rest'.length < toks.length := by
  match toks with
  | [] => simp [Parser.scene] at h
  | t :: rest =>
    simp only [Parser.scene] at h
    split at h
    · match rest with
      | [] => simp at h
      | t2 :: rest2 =>
        simp only at h
        split at h
        · have := sceneLoop_ok_length_lt h
          simp only [List.length_cons]
          omega
        · simp at h
    · simp at h

/-- Top-level loop of `Parser.parse`: each token must be the KEYWORD
`author` or `scene`; anything else is fatal.  At stream end, return the
collected scenes and top-level authors. -/
def parseLoop (scenes : List Scene) (authors : List Author)
    (toks : List Token) : Except String (List Scene × List Author) :=
  match toks with
  | [] => .ok (scenes, authors)
  | t :: rest =>
    if t.type = TokenType.KEYWORD then
      if t.value = "author".toList then
        match hpa : Parser.author rest with
        | .error e => .error e
        | .ok (a, rest') => parseLoop scenes (authors ++ [a]) rest'
      else if t.value = "scene".toList then
        match hps : Parser.scene rest with
        | .error e => .error e
        | .ok (s, rest') => parseLoop (scenes ++ [s]) authors rest'
      else
        .error ("Expected keyword author or scene, got " ++ String.mk t.value)
    else .error ("Unexpected token type " ++ t.type.name)
termination_by toks.length
decreasing_by
  · have := author_ok_length_lt hpa
    simp only [List.length_cons]
    omega
  · have := scene_ok_length_lt hps
    simp only [List.length_cons]
    omega

/-- `Parser.parse`: run the top-level loop, then broadcast every
top-level author onto every scene (`authors.forEach(a =>
scenes.forEach(s => s.addAuthor(a)))`) and return the scene list. -/
def Parser.parse (toks : List Token) : Except String (List Scene) :=
  match parseLoop [] [] toks with
  | .error e => .error e
  | .ok (scenes, authors) =>
    .ok (scenes.map fun s => authors.foldl Scene.addAuthor s)

/-- The whole pipeline as used in `main.tsx`: reader, lexer, parser. -/
def parseSource (src : String) : Except String (List Scene) :=
  match tokenize src.toList with
  | .error e => .error e
  | .ok toks => Parser.parse toks

/-- Character suffixes made only of whitespace and `#`-comments: after a
`#`, the rest of the line (everything up to the next carriage return or
newline) belongs to the comment. -/
inductive OnlyWsComments : List Char → Prop where
  | nil : OnlyWsComments []
  | ws {c : Char} {rest : List Char} : isWhitespace c = true →
      OnlyWsComments rest → OnlyWsComments (c :: rest)
  | hash {rest : List Char} :
      OnlyWsComments (rest.dropWhile fun c => !(c == '\r' || c == '\n')) →
      OnlyWsComments ('#' :: rest)

/-- Claim C4: for every reader state with cursor `p` and every `k` with
`p + k` within the buffer, `read k` returns exactly the `k` characters
starting at `p` (the same characters `peek k` returns there) and leaves
the cursor at `p + k`. -/
theorem claim_C4 (r : BufferReader) (k : Nat)
    (h : r.pos + k ≤ r.source.length) :
    (r.read k).1 = .ok ((r.source.drop r.pos).take k) ∧
    (r.read k).1 = (r.peek k).1 ∧
    ((r.source.drop r.pos).take k).length = k ∧
    (r.read k).2 = ⟨r.source, r.pos + k⟩ := by
  have hnl : ¬ (r.source.length < r.pos + k) := by omega
  refine ⟨?_, ?_, ?_, ?_⟩
  · simp [BufferReader.read, BufferReader.peek, hnl]
  · simp [BufferReader.read, BufferReader.peek]
  · simp only [List.length_take, List.length_drop]
    omega
  · simp [BufferReader.read, BufferReader.peek]

theorem claim_C4_witness :
    (BufferReader.mk "abc".toList 1).pos + 2 ≤
      (BufferReader.mk "abc".toList 1).source.length ∧
    ((BufferReader.mk "abc".toList 1).read 2).1 =
      .ok ((("abc".toList).drop 1).take 2) ∧
    ((BufferReader.mk "abc".toList 1).read 2).1 =
      ((BufferReader.mk "abc".toList 1).peek 2).1 ∧
    ((("abc".toList).drop 1).take 2).length = 2 ∧
    ((BufferReader.mk "abc".toList 1).read 2).2 = ⟨"abc".toList, 1 + 2⟩ :=
  ⟨by decide, claim_C4 (BufferReader.mk "abc".toList 1) 2 (by decide)⟩

/-- Claim C5: when `read k` is called at cursor `p` with `p + k` past the
buffer end, it fails with the bounds error but the cursor is still
advanced by `k`, so the reader is mutated despite the error and `isEOF`
is true afterwards. -/
theorem claim_C5 (r : BufferReader) (k : Nat)
    (h : r.source.length < r.pos + k) :
    (r.read k).1 = .error "k lies outside source buffer" ∧
    (r.read k).2 = ⟨r.source, r.pos + k⟩ ∧
    ((r.read k).2).isEOF = true := by
  refine ⟨?_, ?_, ?_⟩
  · simp [BufferReader.read, BufferReader.peek, h]
  · simp [BufferReader.read, BufferReader.peek]
  · simp only [BufferReader.read, BufferReader.peek, BufferReader.isEOF,
      decide_eq_true_eq]
    omega

theorem claim_C5_witness :
    (BufferReader.mk "ab".toList 1).source.length <
      (BufferReader.mk "ab".toList 1).pos + 4 ∧
    ((BufferReader.mk "ab".toList 1).read 4).1 =
      .error "k lies outside source buffer" ∧
    ((BufferReader.mk "ab".toList 1).read 4).2 = ⟨"ab".toList, 1 + 4⟩ ∧
    (((BufferReader.mk "ab".toList 1).read 4).2).isEOF = true :=
  ⟨by decide, claim_C5 (BufferReader.mk "ab".toList 1) 4 (by decide)⟩

/-- Claim C8: `peek k` never changes the reader state: the post-call
state equals the pre-call state (in particular the cursor is unchanged),
and two consecutive `peek k` calls with no intervening `read` return the
same result. -/
theorem claim_C8 (r : BufferReader) (k : Nat)
    (h : r.pos + k ≤ r.source.length) :
    ((r.peek k).2).pos = r.pos ∧
    (r.peek k).2 = r ∧
    (((r.peek k).2).peek k).1 = (r.peek k).1 := by
  refine ⟨rfl, rfl, rfl⟩

theorem claim_C8_witness :
    (BufferReader.mk "abc".toList 0).pos + 2 ≤
      (BufferReader.mk "abc".toList 0).source.length ∧
    (((BufferReader.mk "abc".toList 0).peek 2).2).pos =
      (BufferReader.mk "abc".toList 0).pos ∧
    ((BufferReader.mk "abc".toList 0).peek 2).2 = BufferReader.mk "abc".toList 0 ∧
    ((((BufferReader.mk "abc".toList 0).peek 2).2).peek 2).1 =
      ((BufferReader.mk "abc".toList 0).peek 2).1 :=
  ⟨by decide, claim_C8 (BufferReader.mk "abc".toList 0) 2 (by decide)⟩

/-- Claim C9: `peek k` past the end of the buffer (cursor plus `k`
beyond the length, in particular `k > n` on a fresh reader over a buffer
of length `n`) fails with the bounds error instead of returning a short
or empty string. -/
theorem claim_C9 (r : BufferReader) (k : Nat)
    (h : r.source.length < r.pos + k) :
    (r.peek k).1 = .error "k lies outside source buffer" := by
  simp [BufferReader.peek, h]

theorem claim_C9_witness :
    (BufferReader.mk "ab".toList 0).source.length <
      (BufferReader.mk "ab".toList 0).pos + 3 ∧
    ((BufferReader.mk "ab".toList 0).peek 3).1 =
      .error "k lies outside source buffer" :=
  ⟨by decide, claim_C9 (BufferReader.mk "ab".toList 0) 3 (by decide)⟩

/-- Claim C10: `Scene.addAuthor` is idempotent per author id: adding an
author whose id is already present leaves the scene unchanged, and
adding the same author twice equals adding it once. -/
theorem claim_C10 :
    (∀ (s : Scene) (a : Author), (∃ x ∈ s.authors, x.id = a.id) →
      s.addAuthor a = s) ∧
    (∀ (s : Scene) (a : Author), (s.addAuthor a).addAuthor a = s.addAuthor a) := by
  have hmem : ∀ (s : Scene) (a : Author), (∃ x ∈ s.authors, x.id = a.id) →
      s.addAuthor a = s := by
    rintro s a ⟨x, hx, hid⟩
    simp only [Scene.addAuthor]
    rw [if_pos]
    exact List.any_eq_true.2 ⟨x, hx, by simp [hid]⟩
  refine ⟨hmem, fun s a => ?_⟩
  apply hmem
  simp only [Scene.addAuthor]
  split
  · rename_i hany
    obtain ⟨x, hx, hxid⟩ := List.any_eq_true.1 hany
    exact ⟨x, hx, by simpa using hxid⟩
  · exact ⟨a, by simp, rfl⟩

theorem claim_C10_witness :
    (∃ x ∈ (Scene.mk ['s'] [⟨['a']⟩] []).authors,
      x.id = (Author.mk ['a']).id) ∧
    (Scene.mk ['s'] [⟨['a']⟩] []).addAuthor ⟨['a']⟩ =
      Scene.mk ['s'] [⟨['a']⟩] [] :=
  ⟨by decide, claim_C10.1 (Scene.mk ['s'] [⟨['a']⟩] []) ⟨['a']⟩ (by decide)⟩

/-- Claim C7: inside a scene body, every token that is not the KEYWORD
`author`, not the KEYWORD `branch` and not CLOSE_BRACE — including
IDENTIFIER, STRING and OPEN_BRACE tokens — is read and silently dropped,
and the scene-body loop continues on the remaining tokens. -/
theorem claim_C7 (t : Token) (toks : List Token) (scene : Scene)
    (authors : List Author)
    (h1 : t.type ≠ TokenType.CLOSE_BRACE)
    (h2 : ¬(t.type = TokenType.KEYWORD ∧ t.value = "author".toList))
    (h3 : ¬(t.type = TokenType.KEYWORD ∧ t.value = "branch".toList)) :
    sceneLoop scene authors (t :: toks) = sceneLoop scene authors toks := by
  rw [sceneLoop.eq_def]
  simp only
  rw [if_neg h2, if_neg h3, if_neg h1]

theorem claim_C7_witness :
    (Token.mk TokenType.STRING ['x']).type ≠ TokenType.CLOSE_BRACE ∧
    ¬((Token.mk TokenType.STRING ['x']).type = TokenType.KEYWORD ∧
      (Token.mk TokenType.STRING ['x']).value = "author".toList) ∧
    ¬((Token.mk TokenType.STRING ['x']).type = TokenType.KEYWORD ∧
      (Token.mk TokenType.STRING ['x']).value = "branch".toList) ∧
    sceneLoop (Scene.mk ['s'] [] []) []
        [⟨TokenType.STRING, ['x']⟩, ⟨TokenType.CLOSE_BRACE, ['}']⟩] =
      sceneLoop (Scene.mk ['s'] [] []) [] [⟨TokenType.CLOSE_BRACE, ['}']⟩] :=
  ⟨by decide, by decide, by decide,
    claim_C7 ⟨TokenType.STRING, ['x']⟩ [⟨TokenType.CLOSE_BRACE, ['}']⟩]
      (Scene.mk ['s'] [] []) [] (by decide) (by decide) (by decide)⟩

/-- Claim C2 (counterexample): `branch()` whose body is cut off by the
end of the token stream does NOT raise the unexpected-EOF error; it
returns normally (and does not register the branch on the scene),
refuting the claim that all three block productions raise on EOF. -/
theorem claim_C2_counterexample :
    Parser.branch (Scene.mk ['s'] [] []) [⟨TokenType.IDENTIFIER, ['b']⟩] =
      .ok (Scene.mk ['s'] [] [], []) := by
  rfl

/-- Claim C2 (amended): when the token stream ends before the block's
CLOSE_BRACE, the body scans of `author()` and `scene()` raise the
unexpected-EOF error, but `branch()`'s body scan instead returns
normally with the scene unchanged (the branch is never registered).  For
`scene()` the tokens are additionally required not to start a nested
`author`/`branch` production, so that the scene loop itself is what
reaches the end of the stream. -/
theorem claim_C2 :
    (∀ (a : Author) (toks : List Token),
      (∀ t ∈ toks, t.type ≠ TokenType.CLOSE_BRACE) →
      authorLoop a toks = .error "Expected CLOSE_BRACE but reached EOF") ∧
    (∀ (scene : Scene) (authors : List Author) (toks : List Token),
      (∀ t ∈ toks, t.type ≠ TokenType.CLOSE_BRACE ∧
        ¬(t.type = TokenType.KEYWORD ∧
          (t.value = "author".toList ∨ t.value = "branch".toList))) →
      sceneLoop scene authors toks = .error "Expected CLOSE_BRACE but reached EOF") ∧
    (∀ (scene : Scene) (b : Branch) (toks : List Token),
      (∀ t ∈ toks, t.type ≠ TokenType.CLOSE_BRACE) →
      branchLoop scene b toks = (scene, [])) := by
  refine ⟨?_, ?_, ?_⟩
  · intro a toks h
    induction toks with
    | nil => rfl
    | cons t rest ih =>
      have ht := h t (by simp)
      simp only [authorLoop, if_neg ht]
      exact ih fun u hu => h u (by simp [hu])
  · intro scene authors toks h
    induction toks generalizing scene authors with
    | nil => rw [sceneLoop.eq_def]
    | cons t rest ih =>
      have ht := h t (by simp)
      have h2 : ¬(t.type = TokenType.KEYWORD ∧ t.value = "author".toList) := by
        intro ⟨ha, hb⟩
        exact ht.2 ⟨ha, Or.inl hb⟩
      have h3 : ¬(t.type = TokenType.KEYWORD ∧ t.value = "branch".toList) := by
        intro ⟨ha, hb⟩
        exact ht.2 ⟨ha, Or.inr hb⟩
      rw [sceneLoop.eq_def]
      simp only
      rw [if_neg h2, if_neg h3, if_neg ht.1]
      exact ih scene authors fun u hu => h u (by simp [hu])
  · intro scene b toks h
    induction toks generalizing scene with
    | nil => rfl
    | cons t rest ih =>
      have ht := h t (by simp)
      simp only [branchLoop, if_neg ht]
      exact ih scene fun u hu => h u (by simp [hu])

theorem commentBody_eq (s l : List Char) :
    commentBody s l = (s ++ l.takeWhile (fun c => !(c == '\r' || c == '\n')),
      l.dropWhile fun c => !(c == '\r' || c == '\n')) := by
  induction l generalizing s with
  | nil => simp [commentBody]
  | cons a l ih =>
    simp only [commentBody, List.takeWhile, List.dropWhile]
    split
    · rename_i ha
      simp [ha]
    · rename_i ha
      simp only [Bool.not_eq_true] at ha
      simp [ha, ih]

theorem dropWhile_eatWhitespace (l : List Char) :
    (eatWhitespace l).dropWhile (fun c => !(c == '\r' || c == '\n')) =
      l.dropWhile fun c => !(c == '\r' || c == '\n') := by
  induction l with
  | nil => simp [eatWhitespace]
  | cons a l ih =>
    simp only [eatWhitespace]
    split
    · rename_i ha
      rw [ih]
      have h1 : a = '\t' ∨ a = ' ' := by simpa using ha
      rcases h1 with h1 | h1 <;> subst h1 <;> simp [List.dropWhile]
    · rfl

theorem comment_hash (rest : List Char) :
    comment ('#' :: rest) =
      .ok (⟨.COMMENT,
        (eatWhitespace rest).takeWhile fun c => !(c == '\r' || c == '\n')⟩,
        rest.dropWhile fun c => !(c == '\r' || c == '\n')) := by
  simp only [comment]
  rw [if_neg (by simp), commentBody_eq, dropWhile_eatWhitespace]
  simp

theorem nextToken_onlyWs {l : List Char} (h : OnlyWsComments l) :
    nextToken l = .ok (none, []) := by
  induction h with
  | nil => simp [nextToken]
  | @ws c rest hws hrest ih =>
    have h1 : c = ' ' ∨ c = '\t' ∨ c = '\n' ∨ c = '\r' := by
      simpa [isWhitespace, or_assoc] using hws
    rcases h1 with h1 | h1 | h1 | h1 <;> subst h1 <;>
      rw [nextToken.eq_def] <;> simpa using ih
  | @hash rest hbody ih =>
    rw [nextToken.eq_def]
    simp only
    rw [if_pos (by simp)]
    split
    · rename_i e heq
      rw [comment_hash] at heq
      simp at heq
    · rename_i tk r2 heq
      rw [comment_hash] at heq
      simp only [Except.ok.injEq, Prod.mk.injEq] at heq
      rw [← heq.2]
      exact ih

/-- Claim C6: on a source made only of whitespace (space, tab, carriage
return, newline) and `#`-comments, `nextToken` never raises and returns
the end-of-stream marker with no token of any kind ever produced
(repeatedly calling it — `tokenize` — yields the empty token list). -/
theorem claim_C6 (l : List Char) (h : OnlyWsComments l) :
    nextToken l = .ok (none, []) ∧ tokenize l = .ok [] := by
  have hnt := nextToken_onlyWs h
  refine ⟨hnt, ?_⟩
  rw [tokenize.eq_def]
  split
  · rename_i e heq
    rw [hnt] at heq
    simp at heq
  · rfl
  · rename_i t r2 heq
    rw [hnt] at heq
    simp at heq

theorem claim_C6_witness :
    OnlyWsComments (" \t# hello\n ".toList) ∧
    (nextToken (" \t# hello\n ".toList) = .ok (none, []) ∧
      tokenize (" \t# hello\n ".toList) = .ok []) := by
  have hd : OnlyWsComments (" \t# hello\n ".toList) :=
    .ws (by decide) (.ws (by decide)
      (.hash (.ws (by decide) (.ws (by decide) .nil))))
  exact ⟨hd, claim_C6 _ hd⟩

theorem claim_C2_witness :
    (∀ t ∈ [Token.mk TokenType.IDENTIFIER ['x']],
      t.type ≠ TokenType.CLOSE_BRACE) ∧
    authorLoop ⟨['a']⟩ [⟨TokenType.IDENTIFIER, ['x']⟩] =
      .error "Expected CLOSE_BRACE but reached EOF" ∧
    sceneLoop (Scene.mk ['s'] [] []) [] [⟨TokenType.STRING, ['x']⟩] =
      .error "Expected CLOSE_BRACE but reached EOF" ∧
    branchLoop (Scene.mk ['s'] [] []) ⟨['b']⟩ [⟨TokenType.IDENTIFIER, ['x']⟩] =
      (Scene.mk ['s'] [] [], []) :=
  ⟨by decide,
    claim_C2.1 ⟨['a']⟩ [⟨TokenType.IDENTIFIER, ['x']⟩] (by decide),
    claim_C2.2.1 (Scene.mk ['s'] [] []) [] [⟨TokenType.STRING, ['x']⟩] (by decide),
    claim_C2.2.2 (Scene.mk ['s'] [] []) ⟨['b']⟩ [⟨TokenType.IDENTIFIER, ['x']⟩]
      (by decide)⟩

/-- Claim C3 (counterexample): escapes do not contribute only the
escaped character.  The literal `"a\b"` is well terminated (escape `\b`,
then the closing quote), yet `stringLiteral` raises `End of source`,
because the escape branch falls through and the unconditional read at
the bottom of the loop swallows the closing quote; with a further `x"`
appended, the same literal is over-consumed into the single STRING value
`ab"x` instead of `ab` followed by normally tokenized characters. -/
theorem claim_C3_counterexample :
    stringLiteral ("\"a\\b\"".toList) = .error "End of source" ∧
    stringLiteral ("\"a\\b\"x\"".toList) =
      .ok (⟨TokenType.STRING, "ab\"x".toList⟩, []) := by
  constructor
  · simp [stringLiteral, stringLoop, eatWhitespace]
  · simp [stringLiteral, stringLoop, eatWhitespace]

/-- Claim C3 (amended): a backslash escape appends exactly the escaped
character to the STRING value, but the same loop iteration then also
consumes and appends the character following the escaped one, bypassing
that character's closing-quote, carriage-return and whitespace-collapse
handling; the spec's own example `"abc\"def"` happens to be unaffected
and still yields the value `abc"def` with the input fully consumed. -/
theorem claim_C3 :
    (∀ (s : List Char) (e n : Char) (rest : List Char),
      stringLoop s ('\\' :: e :: n :: rest) = stringLoop (s ++ [e] ++ [n]) rest) ∧
    stringLiteral ("\"abc\\\"def\"".toList) =
      .ok (⟨TokenType.STRING, "abc\"def".toList⟩, []) := by
  constructor
  · intro s e n rest
    rw [stringLoop.eq_def]
    simp
  · simp [stringLiteral, stringLoop, eatWhitespace]

/-- The source text of the round-trip property in the specification. -/
def c1src : String := "author a \x7b\x7d scene s \x7b author a \x7b branch b \x7b \x7d \x7d \x7d"

/-- The token stream the lexer produces for `c1src`. -/
def c1toks : List Token :=
  [⟨.KEYWORD, "author".toList⟩, ⟨.IDENTIFIER, ['a']⟩,
   ⟨.OPEN_BRACE, ['{']⟩, ⟨.CLOSE_BRACE, ['}']⟩,
   ⟨.KEYWORD, "scene".toList⟩, ⟨.IDENTIFIER, ['s']⟩, ⟨.OPEN_BRACE, ['{']⟩,
   ⟨.KEYWORD, "author".toList⟩, ⟨.IDENTIFIER, ['a']⟩, ⟨.OPEN_BRACE, ['{']⟩,
   ⟨.KEYWORD, "branch".toList⟩, ⟨.IDENTIFIER, ['b']⟩, ⟨.OPEN_BRACE, ['{']⟩,
   ⟨.CLOSE_BRACE, ['}']⟩, ⟨.CLOSE_BRACE, ['}']⟩, ⟨.CLOSE_BRACE, ['}']⟩]

theorem tokenize_cons {r : List Char} {t : Token} {r' : List Char}
    {ts : List Token} (h : nextToken r = .ok (some t, r'))
    (h2 : tokenize r' = .ok ts) : tokenize r = .ok (t :: ts) := by
  rw [tokenize.eq_def]
  split
  next e heq =>
    rw [h] at heq
    simp at heq
  next snd heq =>
    rw [h] at heq
    simp at heq
  next t2 r2 heq =>
    rw [h] at heq
    simp only [Except.ok.injEq, Prod.mk.injEq, Option.some.injEq] at heq
    rw [← heq.1, ← heq.2, h2]

theorem tokenize_end {r r' : List Char}
    (h : nextToken r = .ok (none, r')) : tokenize r = .ok [] := by
  rw [tokenize.eq_def]
  split
  next e heq =>
    rw [h] at heq
    simp at heq
  next snd heq => rfl
  next t2 r2 heq =>
    rw [h] at heq
    simp at heq

theorem parseLoop_author_step {scenes : List Scene} {authors : List Author}
    {rest : List Token} {a : Author} {rest' : List Token}
    (h : Parser.author rest = .ok (a, rest')) :
    parseLoop scenes authors (⟨TokenType.KEYWORD, "author".toList⟩ :: rest) =
      parseLoop scenes (authors ++ [a]) rest' := by
  rw [parseLoop.eq_def]
  dsimp only
  rw [if_pos rfl, if_pos rfl]
  split
  next e heq =>
    rw [h] at heq
    simp at heq
  next a2 rest2 heq =>
    rw [h] at heq
    simp only [Except.ok.injEq, Prod.mk.injEq] at heq
    rw [← heq.1, ← heq.2]

theorem parseLoop_scene_step {scenes : List Scene} {authors : List Author}
    {rest : List Token} {s : Scene} {rest' : List Token}
    (h : Parser.scene rest = .ok (s, rest')) :
    parseLoop scenes authors (⟨TokenType.KEYWORD, "scene".toList⟩ :: rest) =
      parseLoop (scenes ++ [s]) authors rest' := by
  rw [parseLoop.eq_def]
  dsimp only
  rw [if_pos rfl, if_neg (by decide), if_pos rfl]
  split
  next e heq =>
    rw [h] at heq
    simp at heq
  next s2 rest2 heq =>
    rw [h] at heq
    simp only [Except.ok.injEq, Prod.mk.injEq] at heq
    rw [← heq.1, ← heq.2]

theorem parseLoop_nonkeyword_step {scenes : List Scene} {authors : List Author}
    {t : Token} {rest : List Token} (ht : ¬ t.type = TokenType.KEYWORD) :
    parseLoop scenes authors (t :: rest) =
      .error ("Unexpected token type " ++ t.type.name) := by
  rw [parseLoop.eq_def]
  dsimp only
  rw [if_neg ht]

theorem sceneLoop_author_step {scene : Scene} {authors : List Author}
    {rest : List Token} {a : Author} {rest' : List Token}
    (h : Parser.author rest = .ok (a, rest')) :
    sceneLoop scene authors (⟨TokenType.KEYWORD, "author".toList⟩ :: rest) =
      sceneLoop scene (authors ++ [a]) rest' := by
  rw [sceneLoop.eq_def]
  dsimp only
  rw [if_pos ⟨rfl, rfl⟩]
  split
  next e heq =>
    rw [h] at heq
    simp at heq
  next a2 rest2 heq =>
    rw [h] at heq
    simp only [Except.ok.injEq, Prod.mk.injEq] at heq
    rw [← heq.1, ← heq.2]

theorem sceneLoop_close_step {scene : Scene} {authors : List Author}
    {rest : List Token} {v : List Char} :
    sceneLoop scene authors (⟨TokenType.CLOSE_BRACE, v⟩ :: rest) =
      .ok (authors.foldl Scene.addAuthor scene, rest) := by
  rw [sceneLoop.eq_def]
  dsimp only
  rw [if_neg (by simp), if_neg (by simp), if_pos rfl]

theorem c1_tokenize : tokenize c1src.toList = .ok c1toks := by
  have n0 : nextToken (c1src.toList) = .ok (some ⟨.KEYWORD, "author".toList⟩,
      " a \x7b\x7d scene s \x7b author a \x7b branch b \x7b \x7d \x7d \x7d".toList) := by
    simp [c1src, nextToken, keywordOrIdentifier, keywordOrIdentifierLoop,
      keywords, isWhitespace]
  have n1 : nextToken (" a \x7b\x7d scene s \x7b author a \x7b branch b \x7b \x7d \x7d \x7d".toList) =
      .ok (some ⟨.IDENTIFIER, ['a']⟩,
      " \x7b\x7d scene s \x7b author a \x7b branch b \x7b \x7d \x7d \x7d".toList) := by
    simp [nextToken, keywordOrIdentifier, keywordOrIdentifierLoop, keywords,
      isWhitespace]
  have n2 : nextToken (" \x7b\x7d scene s \x7b author a \x7b branch b \x7b \x7d \x7d \x7d".toList) =
      .ok (some ⟨.OPEN_BRACE, ['{']⟩,
      "\x7d scene s \x7b author a \x7b branch b \x7b \x7d \x7d \x7d".toList) := by
    simp [nextToken, keywordOrIdentifier, keywordOrIdentifierLoop, keywords,
      isWhitespace]
  have n3 : nextToken ("\x7d scene s \x7b author a \x7b branch b \x7b \x7d \x7d \x7d".toList) =
      .ok (some ⟨.CLOSE_BRACE, ['}']⟩,
      " scene s \x7b author a \x7b branch b \x7b \x7d \x7d \x7d".toList) := by
    simp [nextToken, keywordOrIdentifier, keywordOrIdentifierLoop, keywords,
      isWhitespace]
  have n4 : nextToken (" scene s \x7b author a \x7b branch b \x7b \x7d \x7d \x7d".toList) =
      .ok (some ⟨.KEYWORD, "scene".toList⟩,
      " s \x7b author a \x7b branch b \x7b \x7d \x7d \x7d".toList) := by
    simp [nextToken, keywordOrIdentifier, keywordOrIdentifierLoop, keywords,
      isWhitespace]
  have n5 : nextToken (" s \x7b author a \x7b branch b \x7b \x7d \x7d \x7d".toList) =
      .ok (some ⟨.IDENTIFIER, ['s']⟩,
      " \x7b author a \x7b branch b \x7b \x7d \x7d \x7d".toList) := by
    simp [nextToken, keywordOrIdentifier, keywordOrIdentifierLoop, keywords,
      isWhitespace]
  have n6 : nextToken (" \x7b author a \x7b branch b \x7b \x7d \x7d \x7d".toList) =
      .ok (some ⟨.OPEN_BRACE, ['{']⟩, " author a \x7b branch b \x7b \x7d \x7d \x7d".toList) := by
    simp [nextToken, keywordOrIdentifier, keywordOrIdentifierLoop, keywords,
      isWhitespace]
  have n7 : nextToken (" author a \x7b branch b \x7b \x7d \x7d \x7d".toList) =
      .ok (some ⟨.KEYWORD, "author".toList⟩, " a \x7b branch b \x7b \x7d \x7d \x7d".toList) := by
    simp [nextToken, keywordOrIdentifier, keywordOrIdentifierLoop, keywords,
      isWhitespace]
  have n8 : nextToken (" a \x7b branch b \x7b \x7d \x7d \x7d".toList) =
      .ok (some ⟨.IDENTIFIER, ['a']⟩, " \x7b branch b \x7b \x7d \x7d \x7d".toList) := by
    simp [nextToken, keywordOrIdentifier, keywordOrIdentifierLoop, keywords,
      isWhitespace]
  have n9 : nextToken (" \x7b branch b \x7b \x7d \x7d \x7d".toList) =
      .ok (some ⟨.OPEN_BRACE, ['{']⟩, " branch b \x7b \x7d \x7d \x7d".toList) := by
    simp [nextToken, keywordOrIdentifier, keywordOrIdentifierLoop, keywords,
      isWhitespace]
  have n10 : nextToken (" branch b \x7b \x7d \x7d \x7d".toList) =
      .ok (some ⟨.KEYWORD, "branch".toList⟩, " b \x7b \x7d \x7d \x7d".toList) := by
    simp [nextToken, keywordOrIdentifier, keywordOrIdentifierLoop, keywords,
      isWhitespace]
  have n11 : nextToken (" b \x7b \x7d \x7d \x7d".toList) =
      .ok (some ⟨.IDENTIFIER, ['b']⟩, " \x7b \x7d \x7d \x7d".toList) := by
    simp [nextToken, keywordOrIdentifier, keywordOrIdentifierLoop, keywords,
      isWhitespace]
  have n12 : nextToken (" \x7b \x7d \x7d \x7d".toList) =
      .ok (some ⟨.OPEN_BRACE, ['{']⟩, " \x7d \x7d \x7d".toList) := by
    simp [nextToken, keywordOrIdentifier, keywordOrIdentifierLoop, keywords,
      isWhitespace]
  have n13 : nextToken (" \x7d \x7d \x7d".toList) =
      .ok (some ⟨.CLOSE_BRACE, ['}']⟩, " \x7d \x7d".toList) := by
    simp [nextToken, keywordOrIdentifier, keywordOrIdentifierLoop, keywords,
      isWhitespace]
  have n14 : nextToken (" \x7d \x7d".toList) =
      .ok (some ⟨.CLOSE_BRACE, ['}']⟩, " \x7d".toList) := by
    simp [nextToken, keywordOrIdentifier, keywordOrIdentifierLoop, keywords,
      isWhitespace]
  have n15 : nextToken (" \x7d".toList) =
      .ok (some ⟨.CLOSE_BRACE, ['}']⟩, "".toList) := by
    simp [nextToken, keywordOrIdentifier, keywordOrIdentifierLoop, keywords,
      isWhitespace]
  have n16 : nextToken ("".toList) = .ok (none, []) := by
    simp [nextToken]
  exact tokenize_cons n0 (tokenize_cons n1 (tokenize_cons n2 (tokenize_cons n3
    (tokenize_cons n4 (tokenize_cons n5 (tokenize_cons n6 (tokenize_cons n7
    (tokenize_cons n8 (tokenize_cons n9 (tokenize_cons n10 (tokenize_cons n11
    (tokenize_cons n12 (tokenize_cons n13 (tokenize_cons n14 (tokenize_cons n15
    (tokenize_end n16))))))))))))))))

theorem c1_parse :
    Parser.parse c1toks = .error "Unexpected token type CLOSE_BRACE" := by
  have h1 : Parser.author [⟨TokenType.IDENTIFIER, ['a']⟩,
      ⟨TokenType.OPEN_BRACE, ['{']⟩, ⟨TokenType.CLOSE_BRACE, ['}']⟩,
      ⟨TokenType.KEYWORD, "scene".toList⟩, ⟨TokenType.IDENTIFIER, ['s']⟩,
      ⟨TokenType.OPEN_BRACE, ['{']⟩, ⟨TokenType.KEYWORD, "author".toList⟩,
      ⟨TokenType.IDENTIFIER, ['a']⟩, ⟨TokenType.OPEN_BRACE, ['{']⟩,
      ⟨TokenType.KEYWORD, "branch".toList⟩, ⟨TokenType.IDENTIFIER, ['b']⟩,
      ⟨TokenType.OPEN_BRACE, ['{']⟩, ⟨TokenType.CLOSE_BRACE, ['}']⟩,
      ⟨TokenType.CLOSE_BRACE, ['}']⟩, ⟨TokenType.CLOSE_BRACE, ['}']⟩] =
      .ok (⟨['a']⟩, [⟨TokenType.KEYWORD, "scene".toList⟩,
      ⟨TokenType.IDENTIFIER, ['s']⟩, ⟨TokenType.OPEN_BRACE, ['{']⟩,
      ⟨TokenType.KEYWORD, "author".toList⟩, ⟨TokenType.IDENTIFIER, ['a']⟩,
      ⟨TokenType.OPEN_BRACE, ['{']⟩, ⟨TokenType.KEYWORD, "branch".toList⟩,
      ⟨TokenType.IDENTIFIER, ['b']⟩, ⟨TokenType.OPEN_BRACE, ['{']⟩,
      ⟨TokenType.CLOSE_BRACE, ['}']⟩, ⟨TokenType.CLOSE_BRACE, ['}']⟩,
      ⟨TokenType.CLOSE_BRACE, ['}']⟩]) := rfl
  have h2 : Parser.author [⟨TokenType.IDENTIFIER, ['a']⟩,
      ⟨TokenType.OPEN_BRACE, ['{']⟩, ⟨TokenType.KEYWORD, "branch".toList⟩,
      ⟨TokenType.IDENTIFIER, ['b']⟩, ⟨TokenType.OPEN_BRACE, ['{']⟩,
      ⟨TokenType.CLOSE_BRACE, ['}']⟩, ⟨TokenType.CLOSE_BRACE, ['}']⟩,
      ⟨TokenType.CLOSE_BRACE, ['}']⟩] =
      .ok (⟨['a']⟩, [⟨TokenType.CLOSE_BRACE, ['}']⟩,
      ⟨TokenType.CLOSE_BRACE, ['}']⟩]) := rfl
  have h3 : sceneLoop ⟨['s'], [], []⟩ []
      [⟨TokenType.KEYWORD, "author".toList⟩, ⟨TokenType.IDENTIFIER, ['a']⟩,
      ⟨TokenType.OPEN_BRACE, ['{']⟩, ⟨TokenType.KEYWORD, "branch".toList⟩,
      ⟨TokenType.IDENTIFIER, ['b']⟩, ⟨TokenType.OPEN_BRACE, ['{']⟩,
      ⟨TokenType.CLOSE_BRACE, ['}']⟩, ⟨TokenType.CLOSE_BRACE, ['}']⟩,
      ⟨TokenType.CLOSE_BRACE, ['}']⟩] =
      .ok (⟨['s'], [⟨['a']⟩], []⟩, [⟨TokenType.CLOSE_BRACE, ['}']⟩]) := by
    rw [sceneLoop_author_step h2, sceneLoop_close_step]
    rfl
  have h4 : Parser.scene [⟨TokenType.IDENTIFIER, ['s']⟩,
      ⟨TokenType.OPEN_BRACE, ['{']⟩, ⟨TokenType.KEYWORD, "author".toList⟩,
      ⟨TokenType.IDENTIFIER, ['a']⟩, ⟨TokenType.OPEN_BRACE, ['{']⟩,
      ⟨TokenType.KEYWORD, "branch".toList⟩, ⟨TokenType.IDENTIFIER, ['b']⟩,
      ⟨TokenType.OPEN_BRACE, ['{']⟩, ⟨TokenType.CLOSE_BRACE, ['}']⟩,
      ⟨TokenType.CLOSE_BRACE, ['}']⟩, ⟨TokenType.CLOSE_BRACE, ['}']⟩] =
      .ok (⟨['s'], [⟨['a']⟩], []⟩, [⟨TokenType.CLOSE_BRACE, ['}']⟩]) := by
    have hd : Parser.scene [⟨TokenType.IDENTIFIER, ['s']⟩,
        ⟨TokenType.OPEN_BRACE, ['{']⟩, ⟨TokenType.KEYWORD, "author".toList⟩,
        ⟨TokenType.IDENTIFIER, ['a']⟩, ⟨TokenType.OPEN_BRACE, ['{']⟩,
        ⟨TokenType.KEYWORD, "branch".toList⟩, ⟨TokenType.IDENTIFIER, ['b']⟩,
        ⟨TokenType.OPEN_BRACE, ['{']⟩, ⟨TokenType.CLOSE_BRACE, ['}']⟩,
        ⟨TokenType.CLOSE_BRACE, ['}']⟩, ⟨TokenType.CLOSE_BRACE, ['}']⟩] =
        sceneLoop ⟨['s'], [], []⟩ []
        [⟨TokenType.KEYWORD, "author".toList⟩, ⟨TokenType.IDENTIFIER, ['a']⟩,
        ⟨TokenType.OPEN_BRACE, ['{']⟩, ⟨TokenType.KEYWORD, "branch".toList⟩,
        ⟨TokenType.IDENTIFIER, ['b']⟩, ⟨TokenType.OPEN_BRACE, ['{']⟩,
        ⟨TokenType.CLOSE_BRACE, ['}']⟩, ⟨TokenType.CLOSE_BRACE, ['}']⟩,
        ⟨TokenType.CLOSE_BRACE, ['}']⟩] := rfl
    rw [hd, h3]
  have hchain : parseLoop [] [] c1toks =
      .error ("Unexpected token type " ++
        (Token.mk TokenType.CLOSE_BRACE ['}']).type.name) := by
    rw [show c1toks = ⟨TokenType.KEYWORD, "author".toList⟩ ::
      [⟨TokenType.IDENTIFIER, ['a']⟩, ⟨TokenType.OPEN_BRACE, ['{']⟩,
      ⟨TokenType.CLOSE_BRACE, ['}']⟩, ⟨TokenType.KEYWORD, "scene".toList⟩,
      ⟨TokenType.IDENTIFIER, ['s']⟩, ⟨TokenType.OPEN_BRACE, ['{']⟩,
      ⟨TokenType.KEYWORD, "author".toList⟩, ⟨TokenType.IDENTIFIER, ['a']⟩,
      ⟨TokenType.OPEN_BRACE, ['{']⟩, ⟨TokenType.KEYWORD, "branch".toList⟩,
      ⟨TokenType.IDENTIFIER, ['b']⟩, ⟨TokenType.OPEN_BRACE, ['{']⟩,
      ⟨TokenType.CLOSE_BRACE, ['}']⟩, ⟨TokenType.CLOSE_BRACE, ['}']⟩,
      ⟨TokenType.CLOSE_BRACE, ['}']⟩] from rfl]
    rw [parseLoop_author_step h1, parseLoop_scene_step h4,
      parseLoop_nonkeyword_step (by decide)]
  have hparse : Parser.parse c1toks =
      match parseLoop [] [] c1toks with
      | .error e => .error e
      | .ok (scenes, authors) =>
        .ok (scenes.map fun s => authors.foldl Scene.addAuthor s) := rfl
  rw [hparse, hchain]
  rfl

/-- Claim C1 (counterexample): parsing the source
`author a {} scene s { author a { branch b { } } }` does not succeed: it
raises `Unexpected token type CLOSE_BRACE`. -/
theorem claim_C1_counterexample :
    parseSource c1src = .error "Unexpected token type CLOSE_BRACE" := by
  simp only [parseSource, c1_tokenize]
  exact c1_parse

/-- Claim C1 (amended): the source lexes into the sixteen expected
tokens, but the parse of that stream fails: the author body scan inside
the scene stops at the first CLOSE_BRACE it sees, so the whole
`branch b { }` fragment is silently swallowed into the author body
(never parsed as a branch), the scene closes at the following
CLOSE_BRACE, and the final CLOSE_BRACE reaches the top level, where
`parse()` raises `Unexpected token type CLOSE_BRACE`.  No document is
produced for this input. -/
theorem claim_C1 :
    tokenize c1src.toList = .ok c1toks ∧
    Parser.author (c1toks.drop 8) =
      .ok (⟨['a']⟩, [⟨.CLOSE_BRACE, ['}']⟩, ⟨.CLOSE_BRACE, ['}']⟩]) ∧
    Parser.parse c1toks = .error "Unexpected token type CLOSE_BRACE" :=
  ⟨c1_tokenize, by rfl, c1_parse⟩

end Lore
